import Mathlib

/-!
Shallow embedding of the bug-composition analysis core of the InEx bug-analysis
repository: the version-timeline builder and bug-to-version assigner
(src/tools/package_evolution_tracker.py), the health dashboard
(src/tools/package_health_dashboard.py), and the tercile computation of the
correlation analyzer (src/tools/correlation_analyzer.py).

Numbers: Python floats are modelled by the rationals; timestamps (timezone-aware
datetimes) by integers counting seconds, so that a timedelta of d days is
d * 86400.  The rounding tie direction of round1 is immaterial to every
property proved here (no rounded quantity ever sits exactly on a tie).
-/

/-- The model of Python round(x, 1): round to the nearest multiple of 1/10. -/
def round1 (q : ℚ) : ℚ := ((round (q * 10) : ℤ) : ℚ) / 10

/-- The model of Python round(x, 2): round to the nearest multiple of 1/100. -/
def round2 (q : ℚ) : ℚ := ((round (q * 100) : ℤ) : ℚ) / 100

/-- A classified issue as consumed by the analysis core: its identifying issue
number, its parsed creation instant (the created_dt attached after ISO-8601
parsing), and its final_classification field, none when the key is absent. -/
structure Bug where
  number : ℤ
  created_dt : ℤ
  final_classification : Option String
deriving DecidableEq, Repr

/-- The effective classification of a bug: bug.get with default Unknown. -/
def effectiveClass (b : Bug) : String := b.final_classification.getD "Unknown"

/-- One entry of the version timeline produced by build_version_timeline. -/
structure VersionRecord where
  version : String
  published_at : ℤ
  published_str : String
  production_deps : ℕ
  is_major : Bool
deriving DecidableEq, Repr

/- ### package_health_dashboard.py -/

/-- The composition dict returned by calculate_composition. -/
structure CompositionSnapshot where
  total : ℕ
  intrinsic : ℕ
  extrinsic : ℕ
  not_bug : ℕ
  unknown : ℕ
  intrinsic_pct : ℚ
  extrinsic_pct : ℚ
  not_bug_pct : ℚ
  unknown_pct : ℚ
deriving DecidableEq, Repr

/-- calculate_composition of package_health_dashboard.py: an empty bucket
yields the all-zero composition; otherwise counts of the four classification
values and their percentages of the total, rounded to one decimal. -/
def calculate_composition (bugs : List Bug) : CompositionSnapshot :=
  if bugs = [] then
    { total := 0, intrinsic := 0, extrinsic := 0, not_bug := 0, unknown := 0
      intrinsic_pct := 0, extrinsic_pct := 0, not_bug_pct := 0, unknown_pct := 0 }
  else
    let total := bugs.length
    let cI := bugs.countP (fun b => effectiveClass b == "Intrinsic")
    let cE := bugs.countP (fun b => effectiveClass b == "Extrinsic")
    let cN := bugs.countP (fun b => effectiveClass b == "Not  a Bug")
    let cU := bugs.countP (fun b => effectiveClass b == "Unknown")
    { total := total, intrinsic := cI, extrinsic := cE, not_bug := cN, unknown := cU
      intrinsic_pct := round1 ((cI : ℚ) / total * 100)
      extrinsic_pct := round1 ((cE : ℚ) / total * 100)
      not_bug_pct := round1 ((cN : ℚ) / total * 100)
      unknown_pct := round1 ((cU : ℚ) / total * 100) }

/-- The three trend labels of calculate_trends. -/
inductive TrendDirection where
  | INCREASING
  | DECREASING
  | STABLE
deriving DecidableEq, Repr

/-- The trends dict returned by calculate_trends: the deltas as stored
(rounded to one decimal) and the directions. -/
structure Trends where
  extrinsic_change : ℚ
  intrinsic_change : ℚ
  extrinsic_trend : TrendDirection
  intrinsic_trend : TrendDirection
deriving DecidableEq, Repr

/-- calculate_trends of package_health_dashboard.py.  The stored change fields
are the deltas rounded to one decimal, while the trend labels are computed
from the raw (unrounded) local delta variables, exactly as in the source. -/
def calculate_trends (recent comparison : CompositionSnapshot) : Trends :=
  let extrinsic_change := recent.extrinsic_pct - comparison.extrinsic_pct
  let intrinsic_change := recent.intrinsic_pct - comparison.intrinsic_pct
  { extrinsic_change := round1 extrinsic_change
    intrinsic_change := round1 intrinsic_change
    extrinsic_trend :=
      if extrinsic_change > 5 then .INCREASING
      else if extrinsic_change < -5 then .DECREASING
      else .STABLE
    intrinsic_trend :=
      if intrinsic_change > 5 then .INCREASING
      else if intrinsic_change < -5 then .DECREASING
      else .STABLE }

/-- The alert messages of generate_alerts, keeping the numeric payload of each
formatted string and abstracting the surrounding literal text. -/
inductive Alert where
  | extrinsicUp (pts : ℚ)
  | intrinsicUp (pts : ℚ)
  | extrinsicDown (pts : ℚ)
  | intrinsicDown (pts : ℚ)
  | noSignificantChange
deriving DecidableEq, Repr

/-- generate_alerts of package_health_dashboard.py: one message per threshold
crossing of the stored (rounded) change fields, else the single
no-significant-change message.  The current_state argument of the source is
unused by the function body and omitted. -/
def generate_alerts (trends : Trends) : List Alert :=
  let alerts :=
    (if trends.extrinsic_change > 5 then [Alert.extrinsicUp trends.extrinsic_change] else []) ++
    (if trends.intrinsic_change > 5 then [Alert.intrinsicUp trends.intrinsic_change] else []) ++
    (if trends.extrinsic_change < -5 then [Alert.extrinsicDown |trends.extrinsic_change|] else []) ++
    (if trends.intrinsic_change < -5 then [Alert.intrinsicDown |trends.intrinsic_change|] else [])
  if alerts = [] then [Alert.noSignificantChange] else alerts

/-- calculate_health_score of package_health_dashboard.py: base 10, penalties
for the recent extrinsic and intrinsic percentages and for positive stored
trend changes, clamped to the interval one to ten and rounded to one decimal. -/
def calculate_health_score (recent_comp : CompositionSnapshot) (trends : Trends) : ℚ :=
  let score := (10 : ℚ) - recent_comp.extrinsic_pct / 2 - recent_comp.intrinsic_pct / 4
  let score := if trends.extrinsic_change > 0 then score - trends.extrinsic_change / 5 else score
  let score := if trends.intrinsic_change > 0 then score - trends.intrinsic_change / 10 else score
  round1 (max 1 (min 10 score))

/-- The recent window filter of get_package_health: bugs whose created_dt is
at or after recent_start = now - months * 30 days (seconds granularity). -/
def recent_bugs (now : ℤ) (months : ℕ) (bugs : List Bug) : List Bug :=
  bugs.filter (fun b => now - (months : ℤ) * 30 * 86400 ≤ b.created_dt)

/-- The comparison window filter of get_package_health: bugs whose created_dt
lies in the half-open interval from comparison_start to recent_start, where
comparison_start = recent_start - months * 30 days. -/
def comparison_bugs (now : ℤ) (months : ℕ) (bugs : List Bug) : List Bug :=
  bugs.filter (fun b =>
    (now - (months : ℤ) * 30 * 86400) - (months : ℤ) * 30 * 86400 ≤ b.created_dt ∧
    b.created_dt < now - (months : ℤ) * 30 * 86400)

/- ### package_evolution_tracker.py -/

/-- The one kind of Python exception the embedded tracker code can raise:
an IndexError from indexing past the end of a list. -/
inductive PyError where
  | indexError
deriving DecidableEq, Repr

deriving instance DecidableEq for Except

/-- The dependency maps of one registry version entry, kept as the
cardinalities len of the three maps; a map missing from the registry entry has
cardinality zero (the .get default of the source). -/
structure VersionInfo where
  dependencies : ℕ
  peerDependencies : ℕ
  optionalDependencies : ℕ
deriving DecidableEq, Repr

/-- One entry of the registry time map: the raw ISO-8601 publish string and
the result of datetime.fromisoformat on it with Z rewritten to an offset,
none when that parse raises (the except-continue branch of the source). -/
structure TimeEntry where
  raw : String
  parsed : Option ℤ
deriving DecidableEq, Repr

/-- The registry document consumed by build_version_timeline: the versions
map (none when the key is absent) and the time map. -/
structure PackageData where
  versions : Option (List (String × VersionInfo))
  time : List (String × TimeEntry)
deriving DecidableEq, Repr

/-- Lexicographic comparison of character lists by code point, the order
Python uses to compare strings. -/
def charListLe : List Char → List Char → Bool
  | [], _ => true
  | _ :: _, [] => false
  | c :: cs, d :: ds =>
    if c.toNat < d.toNat then true
    else if d.toNat < c.toNat then false
    else charListLe cs ds

/-- The model of Python string comparison a <= b: lexicographic by code
point on the underlying character lists. -/
def pyStrLe (a b : String) : Bool := charListLe a.data b.data

/-- The model of Python str.split over a one-character separator, on the
underlying character list: an empty string yields the singleton list of the
empty string, as in Python. -/
def splitOnChar (sep : Char) (l : List Char) : List (List Char) :=
  l.foldr
    (fun c acc =>
      if c = sep then [] :: acc
      else
        match acc with
        | h :: t => (c :: h) :: t
        | [] => [[c]])
    [[]]

/-- The model of version.split('.'). -/
def pySplitDot (s : String) : List String :=
  (splitOnChar '.' s.data).map (fun l => String.mk l)

/-- The is_major expression of build_version_timeline:
version.split('.')[1] == '0' and version.split('.')[2] == '0', with Python
short-circuit evaluation and an IndexError when an index is out of range. -/
def isMajorOf (version : String) : Except PyError Bool :=
  let parts := pySplitDot version
  match parts.get? 1 with
  | none => .error .indexError
  | some s1 =>
    if s1 = "0" then
      match parts.get? 2 with
      | none => .error .indexError
      | some s2 => .ok (s2 = "0")
    else .ok false

/-- build_version_timeline of package_evolution_tracker.py.  Returns ok none
when package_data is falsy or lacks a versions key; otherwise builds one
record per version that has a truthy, parseable publish time, sorts by
published_at, and finally raises IndexError (from the timeline summary print
indexing timeline[0]) when the filtered timeline is empty. -/
def build_version_timeline (package_data : Option PackageData) :
    Except PyError (Option (List VersionRecord)) :=
  match package_data with
  | none => .ok none
  | some pd =>
    match pd.versions with
    | none => .ok none
    | some versions => do
      let timeline ← versions.foldlM
        (fun (acc : List VersionRecord) (entry : String × VersionInfo) => do
          let version := entry.1
          let version_info := entry.2
          match pd.time.lookup version with
          | none => pure acc
          | some te =>
            if te.raw = "" then pure acc
            else
              match te.parsed with
              | none => pure acc
              | some publish_dt => do
                let production_deps := version_info.dependencies +
                  version_info.peerDependencies + version_info.optionalDependencies
                let is_major ← isMajorOf version
                pure (acc ++ [{ version := version, published_at := publish_dt,
                                published_str := te.raw.take 10,
                                production_deps := production_deps,
                                is_major := is_major }])) []
      let sorted := List.insertionSort
        (fun a b => a.published_at ≤ b.published_at) timeline
      match sorted with
      | [] => .error .indexError
      | _ => .ok (some sorted)

/-- The inner scan of assign_bugs_to_versions: walk the timeline in order,
remembering the version of every record published at or before t, and stop at
the first record published after t (the break of the source). -/
def scanAssign (t : ℤ) : List VersionRecord → Option String → Option String
  | [], acc => acc
  | v :: rest, acc =>
    if v.published_at ≤ t then scanAssign t rest (some v.version) else acc

/-- The assigned version of a bug created at instant t: the scan started with
assigned_version = None. -/
def assignedVersion (version_timeline : List VersionRecord) (t : ℤ) : Option String :=
  scanAssign t version_timeline none

/-- A structurally recursive equivalent of scanAssign used in proofs. -/
def assignedRec : List VersionRecord → ℤ → Option String
  | [], _ => none
  | v :: rest, t =>
    if v.published_at ≤ t then
      match assignedRec rest t with
      | some w => some w
      | none => some v.version
    else none

/-- Appending a bug to the bucket of key k in a defaultdict-of-lists modelled
as an association list in key-insertion order. -/
def addToBucket (m : List (String × List Bug)) (k : String) (b : Bug) :
    List (String × List Bug) :=
  match m with
  | [] => [(k, [b])]
  | (k', bs) :: rest =>
    if k' = k then (k', bs ++ [b]) :: rest else (k', bs) :: addToBucket rest k b

/-- assign_bugs_to_versions of package_evolution_tracker.py: each bug is given
to the bucket of its assigned version; a bug whose scan yields a falsy value
(None, or an empty version string) is counted unassigned and dropped. -/
def assign_bugs_to_versions (bugs : List Bug) (version_timeline : List VersionRecord) :
    List (String × List Bug) :=
  bugs.foldl
    (fun m b =>
      match assignedVersion version_timeline b.created_dt with
      | some v => if v ≠ "" then addToBucket m v b else m
      | none => m) []

/-- The version_metadata dict comprehension of analyze_version_composition:
for a duplicated version id the record seen last wins. -/
def metadataFor (version_timeline : List VersionRecord) (v : String) :
    Option VersionRecord :=
  version_timeline.reverse.find? (fun r => r.version == v)

/-- The published_at timestamp a version id carries in the timeline, default
zero when absent; used only to state ordering properties of the analysis. -/
def timelinePublishedAt (version_timeline : List VersionRecord) (v : String) : ℤ :=
  ((metadataFor version_timeline v).map (fun r => r.published_at)).getD 0

/-- One result record of analyze_version_composition.  Its published_at field
is the string metadata.get published_str with default Unknown, exactly the
dict field the final sort key reads. -/
structure VersionAnalysis where
  version : String
  published_at : String
  production_deps : ℕ
  is_major : Bool
  total_bugs : ℕ
  intrinsic : ℕ
  extrinsic : ℕ
  not_bug : ℕ
  unknown : ℕ
  intrinsic_pct : ℚ
  extrinsic_pct : ℚ
  not_bug_pct : ℚ
  unknown_pct : ℚ
deriving DecidableEq, Repr

/-- analyze_version_composition of package_evolution_tracker.py: one record
per bucket in iteration order, then a stable sort by the published_at string
field (results.sort is Python timsort, which is stable; List.insertionSort is
likewise stable). -/
def analyze_version_composition (bugs_by_version : List (String × List Bug))
    (version_timeline : List VersionRecord) : List VersionAnalysis :=
  let results := bugs_by_version.map (fun p =>
    let version := p.1
    let bugs := p.2
    let metadata := metadataFor version_timeline version
    let total : ℕ := bugs.length
    let cI : ℕ := bugs.countP (fun b => effectiveClass b == "Intrinsic")
    let cE : ℕ := bugs.countP (fun b => effectiveClass b == "Extrinsic")
    let cN : ℕ := bugs.countP (fun b => effectiveClass b == "Not  a Bug")
    let cU : ℕ := bugs.countP (fun b => effectiveClass b == "Unknown")
    let intrinsic_pct : ℚ := if total > 0 then (cI : ℚ) / total * 100 else 0
    let extrinsic_pct : ℚ := if total > 0 then (cE : ℚ) / total * 100 else 0
    let not_bug_pct : ℚ := if total > 0 then (cN : ℚ) / total * 100 else 0
    let unknown_pct : ℚ := if total > 0 then (cU : ℚ) / total * 100 else 0
    { version := version
      published_at := ((metadata.map (fun r => r.published_str)).getD "Unknown")
      production_deps := ((metadata.map (fun r => r.production_deps)).getD 0)
      is_major := ((metadata.map (fun r => r.is_major)).getD false)
      total_bugs := total
      intrinsic := cI, extrinsic := cE, not_bug := cN, unknown := cU
      intrinsic_pct := round1 intrinsic_pct
      extrinsic_pct := round1 extrinsic_pct
      not_bug_pct := round1 not_bug_pct
      unknown_pct := round1 unknown_pct })
  List.insertionSort (fun a b => pyStrLe a.published_at b.published_at = true) results

/- ### correlation_analyzer.py -/

/-- One package data point of the correlation analysis, keeping the fields
calculate_empirical_thresholds reads: the production dependency count and the
extrinsic bug ratio. -/
structure DataPoint where
  package : String
  production : ℤ
  extrinsic_ratio : ℚ
deriving DecidableEq, Repr

/-- The empirical thresholds result of calculate_empirical_thresholds,
keeping the numeric and group content of the returned dict. -/
structure EmpiricalThresholds where
  low_threshold : ℤ
  high_threshold : ℤ
  low_risk : List DataPoint
  medium_risk : List DataPoint
  high_risk : List DataPoint
  low_avg_extrinsic : ℚ
  medium_avg_extrinsic : ℚ
  high_avg_extrinsic : ℚ
deriving DecidableEq, Repr

/-- calculate_empirical_thresholds of correlation_analyzer.py.  The source
indices int(n * 0.33) and int(n * 0.66) are embedded as the exact
n * 33 / 100 and n * 66 / 100: the float products carry 0.33 and 0.66 rounded
upward, so truncation agrees with the exact quotient for every list length
reachable here. -/
def calculate_empirical_thresholds (data_points : List DataPoint) :
    Option EmpiricalThresholds :=
  if data_points = [] then none
  else
    let prod_deps := List.insertionSort (fun a b => a ≤ b)
      (data_points.map (fun dp => dp.production))
    let n := data_points.length
    let p33_index := n * 33 / 100
    let p66_index := n * 66 / 100
    let low_threshold := prod_deps.getD p33_index 0
    let high_threshold := prod_deps.getD p66_index 0
    let low_risk := data_points.filter (fun dp => dp.production < low_threshold)
    let medium_risk := data_points.filter
      (fun dp => low_threshold ≤ dp.production ∧ dp.production < high_threshold)
    let high_risk := data_points.filter (fun dp => dp.production ≥ high_threshold)
    let avg := fun (l : List DataPoint) =>
      if l = [] then (0 : ℚ)
      else (l.map (fun dp => dp.extrinsic_ratio)).sum / l.length
    some { low_threshold := low_threshold
           high_threshold := high_threshold
           low_risk := low_risk
           medium_risk := medium_risk
           high_risk := high_risk
           low_avg_extrinsic := round2 (avg low_risk)
           medium_avg_extrinsic := round2 (avg medium_risk)
           high_avg_extrinsic := round2 (avg high_risk) }

/- ### Concrete inputs used by witnesses and counterexamples -/

/-- The version timeline of the assignment scenario of the spec, with
publish instants 10, 20, 30. -/
def tlSpec : List VersionRecord :=
  [{ version := "1.0.0", published_at := 10, published_str := "2019-01-01",
     production_deps := 1, is_major := true },
   { version := "2.0.0", published_at := 20, published_str := "2020-01-01",
     production_deps := 2, is_major := true },
   { version := "3.0.0", published_at := 30, published_str := "2021-06-01",
     production_deps := 3, is_major := true }]

/-- A bug created at instant 15, between the first two releases of tlSpec. -/
def bug15 : Bug :=
  { number := 1, created_dt := 15, final_classification := some "Intrinsic" }

/-- A bug created at instant 25, between the second and third releases. -/
def bug25 : Bug :=
  { number := 2, created_dt := 25, final_classification := some "Extrinsic" }

/-- A bug created at instant 5, before every release of tlSpec. -/
def bug5 : Bug :=
  { number := 3, created_dt := 5, final_classification := some "Unknown" }

/-- Bugs created at 15, 25 and 5 against tlSpec: the first two land on the
first and second version, the third predates every release. -/
def bugsSpec : List Bug := [bug15, bug25, bug5]

/-- Registry data with one version and no publish-time entry: every version
is filtered out and the timeline is empty. -/
def pdEmptyTime : PackageData :=
  { versions := some [("1.0.0", { dependencies := 0, peerDependencies := 0,
                                  optionalDependencies := 0 })]
    time := [] }

/-- Registry data whose only version id has two dot-separated components and
a valid publish timestamp. -/
def pdNonSemver : PackageData :=
  { versions := some [("1.0", { dependencies := 0, peerDependencies := 0,
                                optionalDependencies := 0 })]
    time := [("1.0", { raw := "2020-01-01T00:00:00Z", parsed := some 1577836800 })] }

/-- A bug created one day after the analysis instant zero. -/
def bugFuture : Bug :=
  { number := 7, created_dt := 86400, final_classification := some "Intrinsic" }

/-- Two versions published on the same calendar day, the one with version id
a later in the day (instant 100) than the one with id b (instant 50). -/
def tlSameDay : List VersionRecord :=
  [{ version := "a", published_at := 100, published_str := "2020-01-01",
     production_deps := 0, is_major := false },
   { version := "b", published_at := 50, published_str := "2020-01-01",
     production_deps := 0, is_major := false }]

/-- Version buckets over tlSameDay in the iteration order a then b. -/
def bbvSameDay : List (String × List Bug) :=
  [("a", [{ number := 1, created_dt := 100, final_classification := some "Intrinsic" }]),
   ("b", [{ number := 2, created_dt := 60, final_classification := some "Extrinsic" }])]

/-- Ten data points with production dependency counts one to ten. -/
def dpsTen : List DataPoint :=
  (List.range 10).map (fun i =>
    { package := "p", production := (i : ℤ) + 1, extrinsic_ratio := 10 })

/-- Three bugs with classifications Intrinsic, Extrinsic and an absent field
(defaulting to Unknown). -/
def bugsThree : List Bug :=
  [{ number := 1, created_dt := 0, final_classification := some "Intrinsic" },
   { number := 2, created_dt := 0, final_classification := some "Extrinsic" },
   { number := 3, created_dt := 0, final_classification := none }]

/-- A recent composition whose extrinsic percentage exceeds the comparison
value below by 5.02 percentage points. -/
def compRecentRaw : CompositionSnapshot :=
  { total := 0, intrinsic := 0, extrinsic := 0, not_bug := 0, unknown := 0
    intrinsic_pct := 0, extrinsic_pct := 4502 / 100, not_bug_pct := 0, unknown_pct := 0 }

/-- The comparison composition paired with compRecentRaw. -/
def compComparisonRaw : CompositionSnapshot :=
  { total := 0, intrinsic := 0, extrinsic := 0, not_bug := 0, unknown := 0
    intrinsic_pct := 0, extrinsic_pct := 40, not_bug_pct := 0, unknown_pct := 0 }

/-- The four classification values of the data model. -/
def fourClasses : List String := ["Intrinsic", "Extrinsic", "Not  a Bug", "Unknown"]

/-- A composition with the given value as both its extrinsic and intrinsic
percentage, every other field zero. -/
def mkComp (e : ℚ) : CompositionSnapshot :=
  { total := 0, intrinsic := 0, extrinsic := 0, not_bug := 0, unknown := 0
    intrinsic_pct := e, extrinsic_pct := e, not_bug_pct := 0, unknown_pct := 0 }

/-- A trends record with zero changes and stable directions. -/
def trendsZero : Trends :=
  { extrinsic_change := 0, intrinsic_change := 0
    extrinsic_trend := .STABLE, intrinsic_trend := .STABLE }

/- ### Rounding lemmas -/

lemma round1_mono {a b : ℚ} (h : a ≤ b) : round1 a ≤ round1 b := by
  unfold round1
  have hr : round (a * 10) ≤ round (b * 10) := by
    rw [round_eq, round_eq]
    exact Int.floor_le_floor (by linarith)
  have hc : ((round (a * 10) : ℤ) : ℚ) ≤ ((round (b * 10) : ℤ) : ℚ) := by exact_mod_cast hr
  linarith

lemma abs_round1_sub (a : ℚ) : |round1 a - a| ≤ 1 / 20 := by
  have h := abs_sub_round (a * 10)
  have heq : round1 a - a = -((a * 10 - ((round (a * 10) : ℤ) : ℚ)) / 10) := by
    unfold round1; ring
  rw [heq, abs_neg, abs_div, abs_of_pos (by norm_num : (0 : ℚ) < 10)]
  linarith

lemma round1_one : round1 1 = 1 := by
  norm_num [round1, round_eq]

lemma round1_ten : round1 10 = 10 := by
  norm_num [round1, round_eq]

/-- C3: calculate_health_score always lies in the interval from 1 to 10, and
is monotonically non-increasing in the recent extrinsic percentage and in the
recent intrinsic percentage when all other inputs are held fixed. -/
theorem health_score_bounded_and_antitone (c : CompositionSnapshot) (t : Trends)
    (e₁ e₂ i₁ i₂ : ℚ) :
    (1 ≤ calculate_health_score c t ∧ calculate_health_score c t ≤ 10) ∧
    (e₁ ≤ e₂ →
      calculate_health_score { c with extrinsic_pct := e₂ } t ≤
        calculate_health_score { c with extrinsic_pct := e₁ } t) ∧
    (i₁ ≤ i₂ →
      calculate_health_score { c with intrinsic_pct := i₂ } t ≤
        calculate_health_score { c with intrinsic_pct := i₁ } t) := by
  have key : ∀ x : ℚ, 1 ≤ round1 (max 1 (min 10 x)) ∧ round1 (max 1 (min 10 x)) ≤ 10 := by
    intro x
    constructor
    · calc (1 : ℚ) = round1 1 := round1_one.symm
        _ ≤ round1 (max 1 (min 10 x)) := round1_mono (le_max_left _ _)
    · calc round1 (max 1 (min 10 x)) ≤ round1 10 :=
          round1_mono (max_le (by norm_num) (min_le_left _ _))
        _ = 10 := round1_ten
  refine ⟨?_, ?_, ?_⟩
  · simpa only [calculate_health_score] using key _
  · intro h
    simp only [calculate_health_score]
    apply round1_mono
    apply max_le_max le_rfl
    apply min_le_min le_rfl
    split_ifs <;> linarith
  · intro h
    simp only [calculate_health_score]
    apply round1_mono
    apply max_le_max le_rfl
    apply min_le_min le_rfl
    split_ifs <;> linarith

/-- C3 witness: the bounds and both monotonicity statements at concrete
inputs. -/
theorem health_score_bounded_and_antitone_witness :
    (1 ≤ calculate_health_score compComparisonRaw trendsZero ∧
      calculate_health_score compComparisonRaw trendsZero ≤ 10) ∧
    (calculate_health_score { compComparisonRaw with extrinsic_pct := 50 } trendsZero ≤
      calculate_health_score { compComparisonRaw with extrinsic_pct := 40 } trendsZero) ∧
    (calculate_health_score { compComparisonRaw with intrinsic_pct := 10 } trendsZero ≤
      calculate_health_score { compComparisonRaw with intrinsic_pct := 0 } trendsZero) := by
  have h := health_score_bounded_and_antitone compComparisonRaw trendsZero 40 50 0 10
  exact ⟨h.1, h.2.1 (by norm_num), h.2.2 (by norm_num)⟩

/-- C5: trend classification is strict at the five-point threshold, for the
extrinsic and the intrinsic delta alike: a delta of exactly five (or minus
five) is STABLE, a delta strictly above five is INCREASING, and a delta
strictly below minus five is DECREASING. -/
theorem trend_classification_strict (r c : CompositionSnapshot) :
    (r.extrinsic_pct - c.extrinsic_pct = 5 →
      (calculate_trends r c).extrinsic_trend = TrendDirection.STABLE) ∧
    (5 < r.extrinsic_pct - c.extrinsic_pct →
      (calculate_trends r c).extrinsic_trend = TrendDirection.INCREASING) ∧
    (r.extrinsic_pct - c.extrinsic_pct = -5 →
      (calculate_trends r c).extrinsic_trend = TrendDirection.STABLE) ∧
    (r.extrinsic_pct - c.extrinsic_pct < -5 →
      (calculate_trends r c).extrinsic_trend = TrendDirection.DECREASING) ∧
    (r.intrinsic_pct - c.intrinsic_pct = 5 →
      (calculate_trends r c).intrinsic_trend = TrendDirection.STABLE) ∧
    (5 < r.intrinsic_pct - c.intrinsic_pct →
      (calculate_trends r c).intrinsic_trend = TrendDirection.INCREASING) ∧
    (r.intrinsic_pct - c.intrinsic_pct = -5 →
      (calculate_trends r c).intrinsic_trend = TrendDirection.STABLE) ∧
    (r.intrinsic_pct - c.intrinsic_pct < -5 →
      (calculate_trends r c).intrinsic_trend = TrendDirection.DECREASING) := by
  have he : (calculate_trends r c).extrinsic_trend =
      (if r.extrinsic_pct - c.extrinsic_pct > 5 then TrendDirection.INCREASING
       else if r.extrinsic_pct - c.extrinsic_pct < -5 then TrendDirection.DECREASING
       else TrendDirection.STABLE) := rfl
  have hi : (calculate_trends r c).intrinsic_trend =
      (if r.intrinsic_pct - c.intrinsic_pct > 5 then TrendDirection.INCREASING
       else if r.intrinsic_pct - c.intrinsic_pct < -5 then TrendDirection.DECREASING
       else TrendDirection.STABLE) := rfl
  refine ⟨?_, ?_, ?_, ?_, ?_, ?_, ?_, ?_⟩ <;> intro h
  · rw [he, if_neg (by linarith), if_neg (by linarith)]
  · rw [he, if_pos h]
  · rw [he, if_neg (by linarith), if_neg (by linarith)]
  · rw [he, if_neg (by linarith), if_pos h]
  · rw [hi, if_neg (by linarith), if_neg (by linarith)]
  · rw [hi, if_pos h]
  · rw [hi, if_neg (by linarith), if_neg (by linarith)]
  · rw [hi, if_neg (by linarith), if_pos h]

/-- C5 witness: the four extrinsic cases and four intrinsic cases each at a
concrete pair of compositions. -/
theorem trend_classification_strict_witness :
    (calculate_trends (mkComp 45) (mkComp 40)).extrinsic_trend = TrendDirection.STABLE ∧
    (calculate_trends (mkComp 46) (mkComp 40)).extrinsic_trend = TrendDirection.INCREASING ∧
    (calculate_trends (mkComp 40) (mkComp 45)).extrinsic_trend = TrendDirection.STABLE ∧
    (calculate_trends (mkComp 40) (mkComp 46)).extrinsic_trend = TrendDirection.DECREASING ∧
    (calculate_trends (mkComp 45) (mkComp 40)).intrinsic_trend = TrendDirection.STABLE ∧
    (calculate_trends (mkComp 46) (mkComp 40)).intrinsic_trend = TrendDirection.INCREASING ∧
    (calculate_trends (mkComp 40) (mkComp 45)).intrinsic_trend = TrendDirection.STABLE ∧
    (calculate_trends (mkComp 40) (mkComp 46)).intrinsic_trend = TrendDirection.DECREASING :=
  ⟨(trend_classification_strict (mkComp 45) (mkComp 40)).1 (by norm_num [mkComp]),
   (trend_classification_strict (mkComp 46) (mkComp 40)).2.1 (by norm_num [mkComp]),
   (trend_classification_strict (mkComp 40) (mkComp 45)).2.2.1 (by norm_num [mkComp]),
   (trend_classification_strict (mkComp 40) (mkComp 46)).2.2.2.1 (by norm_num [mkComp]),
   (trend_classification_strict (mkComp 45) (mkComp 40)).2.2.2.2.1 (by norm_num [mkComp]),
   (trend_classification_strict (mkComp 46) (mkComp 40)).2.2.2.2.2.1 (by norm_num [mkComp]),
   (trend_classification_strict (mkComp 40) (mkComp 45)).2.2.2.2.2.2.1 (by norm_num [mkComp]),
   (trend_classification_strict (mkComp 40) (mkComp 46)).2.2.2.2.2.2.2 (by norm_num [mkComp])⟩

/-- C10: the trend direction is taken from the raw delta while the alerts
read the delta rounded to one decimal, so a raw extrinsic delta strictly
between 5 and 5.05 yields an INCREASING trend together with only the single
no-significant-change alert. -/
theorem trend_alert_rounding_divergence :
    5 < compRecentRaw.extrinsic_pct - compComparisonRaw.extrinsic_pct ∧
    compRecentRaw.extrinsic_pct - compComparisonRaw.extrinsic_pct < 505 / 100 ∧
    (calculate_trends compRecentRaw compComparisonRaw).extrinsic_trend =
      TrendDirection.INCREASING ∧
    generate_alerts (calculate_trends compRecentRaw compComparisonRaw) =
      [Alert.noSignificantChange] := by
  refine ⟨by norm_num [compRecentRaw, compComparisonRaw], by
      norm_num [compRecentRaw, compComparisonRaw], by
      norm_num [calculate_trends, compRecentRaw, compComparisonRaw], by
      norm_num [generate_alerts, calculate_trends, compRecentRaw, compComparisonRaw,
        round1, round_eq]⟩

lemma countP_classes_sum (bugs : List Bug)
    (h : ∀ b ∈ bugs, effectiveClass b ∈ fourClasses) :
    bugs.countP (fun b => effectiveClass b == "Intrinsic") +
      bugs.countP (fun b => effectiveClass b == "Extrinsic") +
      bugs.countP (fun b => effectiveClass b == "Not  a Bug") +
      bugs.countP (fun b => effectiveClass b == "Unknown") = bugs.length := by
  induction bugs with
  | nil => simp
  | cons b bs ih =>
    have hb := h b (List.mem_cons_self _ _)
    have hrest : ∀ x ∈ bs, effectiveClass x ∈ fourClasses :=
      fun x hx => h x (List.mem_cons_of_mem _ hx)
    have hsum := ih hrest
    simp only [fourClasses, List.mem_cons, List.not_mem_nil, or_false] at hb
    rcases hb with h1 | h1 | h1 | h1 <;> simp [List.countP_cons, h1] <;> omega

/-- C4: for a non-empty bug list whose effective classifications all lie in
the four data-model values, the four percentages of calculate_composition sum
to 100 up to the rounding error of four one-decimal roundings. -/
theorem composition_percentages_sum_to_100 (bugs : List Bug) (hne : bugs ≠ [])
    (hcls : ∀ b ∈ bugs, effectiveClass b ∈ fourClasses) :
    |(calculate_composition bugs).intrinsic_pct +
        (calculate_composition bugs).extrinsic_pct +
        (calculate_composition bugs).not_bug_pct +
        (calculate_composition bugs).unknown_pct - 100| ≤ 1 / 5 := by
  have hlen : 0 < bugs.length := List.length_pos.mpr hne
  simp only [calculate_composition, if_neg hne]
  set xI : ℚ := ((bugs.countP (fun b => effectiveClass b == "Intrinsic") : ℕ) : ℚ) /
    ((bugs.length : ℕ) : ℚ) * 100 with hxI
  set xE : ℚ := ((bugs.countP (fun b => effectiveClass b == "Extrinsic") : ℕ) : ℚ) /
    ((bugs.length : ℕ) : ℚ) * 100 with hxE
  set xN : ℚ := ((bugs.countP (fun b => effectiveClass b == "Not  a Bug") : ℕ) : ℚ) /
    ((bugs.length : ℕ) : ℚ) * 100 with hxN
  set xU : ℚ := ((bugs.countP (fun b => effectiveClass b == "Unknown") : ℕ) : ℚ) /
    ((bugs.length : ℕ) : ℚ) * 100 with hxU
  have hT0 : ((bugs.length : ℕ) : ℚ) ≠ 0 := by
    exact_mod_cast Nat.pos_iff_ne_zero.mp hlen
  have hx : xI + xE + xN + xU = 100 := by
    have hcast : ((bugs.countP (fun b => effectiveClass b == "Intrinsic") : ℕ) : ℚ) +
        ((bugs.countP (fun b => effectiveClass b == "Extrinsic") : ℕ) : ℚ) +
        ((bugs.countP (fun b => effectiveClass b == "Not  a Bug") : ℕ) : ℚ) +
        ((bugs.countP (fun b => effectiveClass b == "Unknown") : ℕ) : ℚ) =
        ((bugs.length : ℕ) : ℚ) := by
      exact_mod_cast countP_classes_sum bugs hcls
    rw [hxI, hxE, hxN, hxU]
    field_simp
    linarith
  have eI := abs_round1_sub xI
  have eE := abs_round1_sub xE
  have eN := abs_round1_sub xN
  have eU := abs_round1_sub xU
  rw [abs_le] at eI eE eN eU ⊢
  obtain ⟨eI1, eI2⟩ := eI
  obtain ⟨eE1, eE2⟩ := eE
  obtain ⟨eN1, eN2⟩ := eN
  obtain ⟨eU1, eU2⟩ := eU
  constructor <;> linarith

/-- C4 witness: three bugs, classified Intrinsic, Extrinsic and by-default
Unknown, whose rounded percentages sum to 99.9. -/
theorem composition_percentages_sum_to_100_witness :
    bugsThree ≠ [] ∧ (∀ b ∈ bugsThree, effectiveClass b ∈ fourClasses) ∧
    |(calculate_composition bugsThree).intrinsic_pct +
        (calculate_composition bugsThree).extrinsic_pct +
        (calculate_composition bugsThree).not_bug_pct +
        (calculate_composition bugsThree).unknown_pct - 100| ≤ 1 / 5 :=
  ⟨by decide, by decide,
   composition_percentages_sum_to_100 bugsThree (by decide) (by decide)⟩

/-- C6 (amended): the recent window of get_package_health contains exactly
the bugs created at or after now minus months times thirty days with no
upper bound, the comparison window is the stated half-open interval, and no
bug lies in both windows. -/
theorem health_windows_characterization (now : ℤ) (months : ℕ) (bugs : List Bug) (b : Bug) :
    (b ∈ recent_bugs now months bugs ↔
      b ∈ bugs ∧ now - (months : ℤ) * 30 * 86400 ≤ b.created_dt) ∧
    (b ∈ comparison_bugs now months bugs ↔
      b ∈ bugs ∧ now - 2 * ((months : ℤ) * 30 * 86400) ≤ b.created_dt ∧
        b.created_dt < now - (months : ℤ) * 30 * 86400) ∧
    (b ∈ recent_bugs now months bugs → b ∉ comparison_bugs now months bugs) := by
  have harith : (now - (months : ℤ) * 30 * 86400) - (months : ℤ) * 30 * 86400 =
      now - 2 * ((months : ℤ) * 30 * 86400) := by ring
  refine ⟨?_, ?_, ?_⟩
  · simp [recent_bugs, List.mem_filter]
  · simp [comparison_bugs, List.mem_filter, harith]
  · intro h1 h2
    simp [recent_bugs, List.mem_filter] at h1
    simp [comparison_bugs, List.mem_filter] at h2
    omega

/-- C6 witness: the window characterization at a concrete instant, months
count and bug list. -/
theorem health_windows_characterization_witness :
    (bugFuture ∈ recent_bugs 0 3 [bugFuture] ↔
      bugFuture ∈ [bugFuture] ∧ (0 : ℤ) - ((3 : ℕ) : ℤ) * 30 * 86400 ≤ bugFuture.created_dt) ∧
    (bugFuture ∈ comparison_bugs 0 3 [bugFuture] ↔
      bugFuture ∈ [bugFuture] ∧
        (0 : ℤ) - 2 * (((3 : ℕ) : ℤ) * 30 * 86400) ≤ bugFuture.created_dt ∧
        bugFuture.created_dt < (0 : ℤ) - ((3 : ℕ) : ℤ) * 30 * 86400) ∧
    (bugFuture ∈ recent_bugs 0 3 [bugFuture] → bugFuture ∉ comparison_bugs 0 3 [bugFuture]) :=
  health_windows_characterization 0 3 [bugFuture] bugFuture

/-- C6 counterexample: a bug created one day after the analysis instant is a
member of the recent window even though its creation time is not at or below
now, refuting the claim that the recent window is the closed interval ending
at now. -/
theorem health_windows_counterexample :
    bugFuture ∈ recent_bugs 0 3 [bugFuture] ∧ ¬ (bugFuture.created_dt ≤ 0) := by
  decide

/-- C2: on registry data that has a version entry but no usable publish
timestamp, build_version_timeline raises an IndexError (from the summary
print indexing the empty filtered timeline) instead of returning an explicit
empty-timeline error value. -/
theorem build_version_timeline_empty_raises :
    pdEmptyTime.versions ≠ none ∧
    build_version_timeline (some pdEmptyTime) = Except.error PyError.indexError := by
  decide

/-- C7: on a version id with only two dot-separated components and a valid
publish timestamp, the is_major indexing raises an IndexError and
build_version_timeline propagates it instead of skipping the version. -/
theorem build_version_timeline_nonsemver_raises :
    (pySplitDot "1.0").length = 2 ∧
    pdNonSemver.time.lookup "1.0" =
      some { raw := "2020-01-01T00:00:00Z", parsed := some 1577836800 } ∧
    build_version_timeline (some pdNonSemver) = Except.error PyError.indexError := by
  decide

lemma scanAssign_eq (t : ℤ) : ∀ (l : List VersionRecord) (acc : Option String),
    scanAssign t l acc =
      match assignedRec l t with
      | some w => some w
      | none => acc := by
  intro l
  induction l with
  | nil => intro acc; rfl
  | cons v rest ih =>
    intro acc
    by_cases h : v.published_at ≤ t
    · cases hr : assignedRec rest t with
      | some w => simp [scanAssign, assignedRec, h, ih, hr]
      | none => simp [scanAssign, assignedRec, h, ih, hr]
    · simp [scanAssign, assignedRec, h]

lemma assignedVersion_eq_assignedRec (tl : List VersionRecord) (t : ℤ) :
    assignedVersion tl t = assignedRec tl t := by
  unfold assignedVersion
  rw [scanAssign_eq]
  cases assignedRec tl t <;> rfl

lemma assignedRec_none_of_all_later (tl : List VersionRecord) (t : ℤ)
    (h : ∀ rec ∈ tl, t < rec.published_at) : assignedRec tl t = none := by
  cases tl with
  | nil => rfl
  | cons v rest =>
    have hv := h v (List.mem_cons_self _ _)
    simp only [assignedRec]
    rw [if_neg (not_le.mpr hv)]

lemma assignedRec_spec (tl : List VersionRecord)
    (hs : List.Pairwise (fun a b => a.published_at ≤ b.published_at) tl) (t : ℤ) (w : String)
    (h : assignedRec tl t = some w) :
    ∃ rec ∈ tl, rec.version = w ∧ rec.published_at ≤ t ∧
      ∀ rec2 ∈ tl, rec2.published_at ≤ t → rec2.published_at ≤ rec.published_at := by
  induction tl with
  | nil => simp [assignedRec] at h
  | cons v rest ih =>
    rw [List.pairwise_cons] at hs
    obtain ⟨hv, hrest⟩ := hs
    by_cases hle : v.published_at ≤ t
    · simp only [assignedRec, if_pos hle] at h
      cases hr : assignedRec rest t with
      | some w2 =>
        rw [hr] at h
        obtain rfl : w2 = w := Option.some.inj h
        obtain ⟨rec, hmem, hver, hrle, hmax⟩ := ih hrest hr
        refine ⟨rec, List.mem_cons_of_mem _ hmem, hver, hrle, ?_⟩
        intro rec2 hmem2 hle2
        rcases List.mem_cons.mp hmem2 with rfl | hmem2
        · exact hv rec hmem
        · exact hmax rec2 hmem2 hle2
      | none =>
        rw [hr] at h
        obtain rfl : v.version = w := Option.some.inj h
        refine ⟨v, List.mem_cons_self _ _, rfl, hle, ?_⟩
        intro rec2 hmem2 hle2
        rcases List.mem_cons.mp hmem2 with rfl | hmem2
        · exact le_refl _
        · exfalso
          cases rest with
          | nil => simp at hmem2
          | cons u more =>
            have hu : ¬ u.published_at ≤ t := by
              intro hut
              simp only [assignedRec, if_pos hut] at hr
              cases hmore : assignedRec more t <;> simp [hmore] at hr
            rcases List.mem_cons.mp hmem2 with rfl | hmem3
            · exact hu hle2
            · have hum : u.published_at ≤ rec2.published_at :=
                (List.pairwise_cons.mp hrest).1 rec2 hmem3
              exact hu (le_trans hum hle2)
    · simp only [assignedRec, if_neg hle] at h
      exact absurd h (by simp)

lemma lookup_addToBucket_self (m : List (String × List Bug)) (k : String) (b : Bug) :
    (addToBucket m k b).lookup k = some (((m.lookup k).getD []) ++ [b]) := by
  induction m with
  | nil => simp [addToBucket, List.lookup]
  | cons p rest ih =>
    obtain ⟨k2, bs⟩ := p
    by_cases h : k2 = k
    · subst h
      simp [addToBucket, List.lookup]
    · have hbeq : (k == k2) = false := beq_eq_false_iff_ne.mpr (Ne.symm h)
      simp [addToBucket, List.lookup, h, hbeq, ih]

lemma lookup_addToBucket_ne (m : List (String × List Bug)) (k k2 : String) (b : Bug)
    (h : k2 ≠ k) : (addToBucket m k b).lookup k2 = m.lookup k2 := by
  induction m with
  | nil => simp [addToBucket, List.lookup, beq_eq_false_iff_ne.mpr h]
  | cons p rest ih =>
    obtain ⟨k3, bs⟩ := p
    by_cases h3 : k3 = k
    · subst h3
      simp [addToBucket, List.lookup, beq_eq_false_iff_ne.mpr h]
    · by_cases h2 : k2 = k3
      · subst h2
        simp [addToBucket, List.lookup, h3]
      · simp [addToBucket, List.lookup, h3, beq_eq_false_iff_ne.mpr h2, ih]

lemma assign_foldl_invariant (tl : List VersionRecord) :
    ∀ (bugs : List Bug) (m : List (String × List Bug)),
      (∀ v b, b ∈ ((m.lookup v).getD []) → assignedVersion tl b.created_dt = some v) →
      ∀ v b,
        b ∈ (((bugs.foldl
          (fun m2 b2 =>
            match assignedVersion tl b2.created_dt with
            | some w => if w ≠ "" then addToBucket m2 w b2 else m2
            | none => m2) m).lookup v).getD []) →
        assignedVersion tl b.created_dt = some v := by
  intro bugs
  induction bugs with
  | nil => intro m hm; simpa using hm
  | cons b0 rest ih =>
    intro m hm v b hmem
    rw [List.foldl_cons] at hmem
    refine ih _ ?_ v b hmem
    intro v2 b2 hb2
    cases ha : assignedVersion tl b0.created_dt with
    | none =>
      simp only [ha] at hb2
      exact hm v2 b2 hb2
    | some w =>
      simp only [ha] at hb2
      by_cases hw : w ≠ ""
      · rw [if_pos hw] at hb2
        by_cases hveq : v2 = w
        · subst hveq
          rw [lookup_addToBucket_self] at hb2
          simp only [Option.getD_some, List.mem_append, List.mem_singleton] at hb2
          rcases hb2 with hb2 | rfl
          · exact hm v2 b2 hb2
          · exact ha
        · rw [lookup_addToBucket_ne _ _ _ _ hveq] at hb2
          exact hm v2 b2 hb2
      · rw [if_neg hw] at hb2
        exact hm v2 b2 hb2

lemma mem_assign_bucket (bugs : List Bug) (tl : List VersionRecord) (v : String) (b : Bug)
    (h : b ∈ (((assign_bugs_to_versions bugs tl).lookup v).getD [])) :
    assignedVersion tl b.created_dt = some v := by
  refine assign_foldl_invariant tl bugs [] ?_ v b h
  intro v2 b2 hb2
  simp [List.lookup] at hb2

/-- C1: over a timeline sorted ascending by published_at, every bug lands in
at most one version bucket; a bucketed bug sits under a version published at
or before its creation time that is latest among all such versions; and a
bug created strictly before every release is in no bucket of the output. -/
theorem assign_bugs_to_versions_correct (bugs : List Bug) (tl : List VersionRecord)
    (b : Bug) (v w : String)
    (hs : List.Pairwise (fun a c => a.published_at ≤ c.published_at) tl) :
    (b ∈ (((assign_bugs_to_versions bugs tl).lookup v).getD []) →
      b ∈ (((assign_bugs_to_versions bugs tl).lookup w).getD []) → v = w) ∧
    (b ∈ (((assign_bugs_to_versions bugs tl).lookup v).getD []) →
      ∃ rec ∈ tl, rec.version = v ∧ rec.published_at ≤ b.created_dt ∧
        ∀ rec2 ∈ tl, rec2.published_at ≤ b.created_dt →
          rec2.published_at ≤ rec.published_at) ∧
    ((∀ rec ∈ tl, b.created_dt < rec.published_at) →
      b ∉ (((assign_bugs_to_versions bugs tl).lookup v).getD [])) := by
  refine ⟨?_, ?_, ?_⟩
  · intro h1 h2
    have e1 := mem_assign_bucket bugs tl v b h1
    have e2 := mem_assign_bucket bugs tl w b h2
    rw [e1] at e2
    exact Option.some.inj e2
  · intro h1
    have e1 := mem_assign_bucket bugs tl v b h1
    rw [assignedVersion_eq_assignedRec] at e1
    exact assignedRec_spec tl hs _ _ e1
  · intro hall h1
    have e1 := mem_assign_bucket bugs tl v b h1
    rw [assignedVersion_eq_assignedRec, assignedRec_none_of_all_later tl _ hall] at e1
    exact Option.noConfusion e1

/-- C1 witness: over the scenario timeline, the bug created at 25 is in the
bucket of the second version, which is the latest version published at or
before 25; the bug created at 5 is in no bucket. -/
theorem assign_bugs_to_versions_correct_witness :
    (∃ rec ∈ tlSpec, rec.version = "2.0.0" ∧ rec.published_at ≤ bug25.created_dt ∧
      ∀ rec2 ∈ tlSpec, rec2.published_at ≤ bug25.created_dt →
        rec2.published_at ≤ rec.published_at) ∧
    bug5 ∉ (((assign_bugs_to_versions bugsSpec tlSpec).lookup "1.0.0").getD []) :=
  ⟨(assign_bugs_to_versions_correct bugsSpec tlSpec bug25 "2.0.0" "2.0.0"
      (by decide)).2.1 (by decide),
   (assign_bugs_to_versions_correct bugsSpec tlSpec bug5 "1.0.0" "1.0.0"
      (by decide)).2.2 (by decide)⟩

lemma charListLe_total : ∀ x y : List Char, charListLe x y = true ∨ charListLe y x = true := by
  intro x
  induction x with
  | nil => intro y; left; rfl
  | cons c cs ih =>
    intro y
    cases y with
    | nil => right; rfl
    | cons d ds =>
      by_cases h1 : c.toNat < d.toNat
      · left; simp [charListLe, h1]
      · by_cases h2 : d.toNat < c.toNat
        · right; simp [charListLe, h2]
        · rcases ih ds with h | h
          · left; simp [charListLe, h1, h2, h]
          · right; simp [charListLe, h1, h2, h]

lemma charListLe_trans : ∀ x y z : List Char,
    charListLe x y = true → charListLe y z = true → charListLe x z = true := by
  intro x
  induction x with
  | nil => intro y z _ _; rfl
  | cons c cs ih =>
    intro y z hxy hyz
    cases y with
    | nil => simp [charListLe] at hxy
    | cons d ds =>
      cases z with
      | nil => simp [charListLe] at hyz
      | cons e es =>
        by_cases h1 : c.toNat < d.toNat
        · by_cases h2 : d.toNat < e.toNat
          · have h3 : c.toNat < e.toNat := Nat.lt_trans h1 h2
            simp [charListLe, h3]
          · by_cases h2' : e.toNat < d.toNat
            · simp [charListLe, h2, h2'] at hyz
            · have hde : d.toNat = e.toNat :=
                Nat.le_antisymm (Nat.le_of_not_lt h2') (Nat.le_of_not_lt h2)
              have h3 : c.toNat < e.toNat := hde ▸ h1
              simp [charListLe, h3]
        · by_cases h1' : d.toNat < c.toNat
          · simp [charListLe, h1, h1'] at hxy
          · have hcd : c.toNat = d.toNat :=
              Nat.le_antisymm (Nat.le_of_not_lt h1') (Nat.le_of_not_lt h1)
            have hxy' : charListLe cs ds = true := by
              simpa [charListLe, h1, h1'] using hxy
            by_cases h2 : d.toNat < e.toNat
            · have h3 : c.toNat < e.toNat := hcd ▸ h2
              simp [charListLe, h3]
            · by_cases h2' : e.toNat < d.toNat
              · simp [charListLe, h2, h2'] at hyz
              · have hde : d.toNat = e.toNat :=
                  Nat.le_antisymm (Nat.le_of_not_lt h2') (Nat.le_of_not_lt h2)
                have hyz' : charListLe ds es = true := by
                  simpa [charListLe, h2, h2'] using hyz
                have h3 : ¬ c.toNat < e.toNat := by omega
                have h3' : ¬ e.toNat < c.toNat := by omega
                simp [charListLe, h3, h3', ih ds es hxy' hyz']

/-- C8 counterexample: with two same-day versions whose publish instants are
100 and then 50, the analysis output keeps the bucket iteration order, so the
sequence of underlying published_at timestamps of the output is 100 then 50,
which is not ascending. -/
theorem analyze_version_composition_order_counterexample :
    (analyze_version_composition bbvSameDay tlSameDay).map
      (fun r => timelinePublishedAt tlSameDay r.version) = [100, 50] ∧
    ¬ List.Sorted (fun a b : ℤ => a ≤ b)
      ((analyze_version_composition bbvSameDay tlSameDay).map
        (fun r => timelinePublishedAt tlSameDay r.version)) := by
  have hmap : (analyze_version_composition bbvSameDay tlSameDay).map
      (fun r => timelinePublishedAt tlSameDay r.version) = [100, 50] := by decide
  refine ⟨hmap, ?_⟩
  intro hsort
  rw [hmap] at hsort
  have := List.rel_of_sorted_cons hsort 50 (by simp)
  omega

/-- C8 (amended): the analysis output is sorted ascending by its published_at
string field (the truncated date string, with Unknown for versions missing
from the timeline), the comparison being Python string order. -/
theorem analyze_version_composition_sorted_by_date_string
    (bbv : List (String × List Bug)) (tl : List VersionRecord) :
    List.Sorted (fun a b => pyStrLe a.published_at b.published_at = true)
      (analyze_version_composition bbv tl) := by
  haveI h1 : IsTotal VersionAnalysis
      (fun a b => pyStrLe a.published_at b.published_at = true) :=
    ⟨fun a b => charListLe_total a.published_at.data b.published_at.data⟩
  haveI h2 : IsTrans VersionAnalysis
      (fun a b => pyStrLe a.published_at b.published_at = true) :=
    ⟨fun a b c => charListLe_trans a.published_at.data b.published_at.data c.published_at.data⟩
  unfold analyze_version_composition
  exact List.sorted_insertionSort _ _

lemma sorted_getD_le (l : List ℤ) (hs : List.Sorted (fun a b : ℤ => a ≤ b) l)
    (i j : ℕ) (hij : i ≤ j) (hj : j < l.length) : l.getD i 0 ≤ l.getD j 0 := by
  have hi : i < l.length := lt_of_le_of_lt hij hj
  rw [List.getD_eq_get l 0 hi, List.getD_eq_get l 0 hj]
  haveI : IsRefl ℤ (fun a b : ℤ => a ≤ b) := ⟨fun a => le_refl a⟩
  exact List.Sorted.rel_get_of_le hs (Fin.mk_le_mk.mpr hij)

lemma insertionSort_int_sorted (l : List ℤ) :
    List.Sorted (fun a b : ℤ => a ≤ b) (List.insertionSort (fun a b : ℤ => a ≤ b) l) := by
  haveI : IsTotal ℤ (fun a b : ℤ => a ≤ b) := ⟨fun a b => le_total a b⟩
  haveI : IsTrans ℤ (fun a b : ℤ => a ≤ b) := ⟨fun a b c hab hbc => le_trans hab hbc⟩
  exact List.sorted_insertionSort _ _

/-- C9: for a non-empty data-point list, the tercile computation takes as
thresholds the values of the ascending-sorted production dependency counts at
the zero-based indices of the 33rd and 66th percentile, the low threshold
never exceeds the high one, and every data point falls in exactly one of the
low, medium and high groups. -/
theorem empirical_tercile_partition (dps : List DataPoint) (h : dps ≠ []) :
    ∃ r, calculate_empirical_thresholds dps = some r ∧
      r.low_threshold = (List.insertionSort (fun a b : ℤ => a ≤ b)
        (dps.map (fun dp => dp.production))).getD (dps.length * 33 / 100) 0 ∧
      r.high_threshold = (List.insertionSort (fun a b : ℤ => a ≤ b)
        (dps.map (fun dp => dp.production))).getD (dps.length * 66 / 100) 0 ∧
      r.low_threshold ≤ r.high_threshold ∧
      ∀ dp ∈ dps,
        ((dp ∈ r.low_risk ∧ dp ∉ r.medium_risk ∧ dp ∉ r.high_risk) ∨
         (dp ∉ r.low_risk ∧ dp ∈ r.medium_risk ∧ dp ∉ r.high_risk) ∨
         (dp ∉ r.low_risk ∧ dp ∉ r.medium_risk ∧ dp ∈ r.high_risk)) := by
  have hpos : 0 < dps.length := List.length_pos.mpr h
  have hlen : (List.insertionSort (fun a b : ℤ => a ≤ b)
      (dps.map (fun dp => dp.production))).length = dps.length := by
    rw [List.length_insertionSort, List.length_map]
  have hLH : (List.insertionSort (fun a b : ℤ => a ≤ b)
        (dps.map (fun dp => dp.production))).getD (dps.length * 33 / 100) 0 ≤
      (List.insertionSort (fun a b : ℤ => a ≤ b)
        (dps.map (fun dp => dp.production))).getD (dps.length * 66 / 100) 0 := by
    refine sorted_getD_le _ (insertionSort_int_sorted _) _ _ (by omega) ?_
    rw [hlen]
    omega
  simp only [calculate_empirical_thresholds, if_neg h]
  refine ⟨_, rfl, rfl, rfl, hLH, ?_⟩
  intro dp hdp
  by_cases hlow : dp.production < (List.insertionSort (fun a b : ℤ => a ≤ b)
      (dps.map (fun dp => dp.production))).getD (dps.length * 33 / 100) 0
  · left
    refine ⟨List.mem_filter.mpr ⟨hdp, by simp only [decide_eq_true_eq]; exact hlow⟩, ?_, ?_⟩
    · intro hmem
      have h2 := (List.mem_filter.mp hmem).2
      simp only [decide_eq_true_eq] at h2
      omega
    · intro hmem
      have h2 := (List.mem_filter.mp hmem).2
      simp only [decide_eq_true_eq] at h2
      omega
  · by_cases hhigh : dp.production < (List.insertionSort (fun a b : ℤ => a ≤ b)
        (dps.map (fun dp => dp.production))).getD (dps.length * 66 / 100) 0
    · right; left
      refine ⟨?_, List.mem_filter.mpr ⟨hdp, ?_⟩, ?_⟩
      · intro hmem
        have h2 := (List.mem_filter.mp hmem).2
        simp only [decide_eq_true_eq] at h2
        omega
      · simp only [decide_eq_true_eq]
        omega
      · intro hmem
        have h2 := (List.mem_filter.mp hmem).2
        simp only [decide_eq_true_eq] at h2
        omega
    · right; right
      refine ⟨?_, ?_, List.mem_filter.mpr ⟨hdp, ?_⟩⟩
      · intro hmem
        have h2 := (List.mem_filter.mp hmem).2
        simp only [decide_eq_true_eq] at h2
        omega
      · intro hmem
        have h2 := (List.mem_filter.mp hmem).2
        simp only [decide_eq_true_eq] at h2
        omega
      · simp only [decide_eq_true_eq]
        omega

/-- C9 witness: on dependency counts one to ten the thresholds are the sorted
values 4 and 7, and the partition statement holds. -/
theorem empirical_tercile_partition_witness :
    ((calculate_empirical_thresholds dpsTen).map
      (fun r => (r.low_threshold, r.high_threshold)) = some (4, 7)) ∧
    (∃ r, calculate_empirical_thresholds dpsTen = some r ∧
      r.low_threshold = (List.insertionSort (fun a b : ℤ => a ≤ b)
        (dpsTen.map (fun dp => dp.production))).getD (dpsTen.length * 33 / 100) 0 ∧
      r.high_threshold = (List.insertionSort (fun a b : ℤ => a ≤ b)
        (dpsTen.map (fun dp => dp.production))).getD (dpsTen.length * 66 / 100) 0 ∧
      r.low_threshold ≤ r.high_threshold ∧
      ∀ dp ∈ dpsTen,
        ((dp ∈ r.low_risk ∧ dp ∉ r.medium_risk ∧ dp ∉ r.high_risk) ∨
         (dp ∉ r.low_risk ∧ dp ∈ r.medium_risk ∧ dp ∉ r.high_risk) ∨
         (dp ∉ r.low_risk ∧ dp ∉ r.medium_risk ∧ dp ∈ r.high_risk))) :=
  ⟨by decide, empirical_tercile_partition dpsTen (by decide)⟩
